import Mathlib

/-!
Shallow embedding of the otelkit repository (src/http.go, src/testing.go):
HTTP tracing middleware, an outbound tracing round-tripper, a baggage
attachment helper, and a test-support in-memory span exporter.

Go's side effects are made explicit: each handler/round-trip returns a
trace of the observable calls it made (the invocation handed to the next
handler, the events applied to the span, the notifications sent to the
sink), panics become an explicit `Outcome.faulted` constructor, and the
mutex-serialized exporter is modelled as an interpreter over a list of
serialized operations.
-/

/-- Trace and span identifiers, `0` standing for the zero-value invalid id. -/
abbrev TraceID := Nat

abbrev SpanID := Nat

/-- trace.SpanContext: the identifier pair of a span.  The spec (section 3)
declares it valid iff both identifiers are non-zero. -/
structure SpanContext where
  traceID : TraceID
  spanID : SpanID
deriving DecidableEq, Repr

/-- SpanContext.IsValid from the tracing SDK: both identifiers non-zero. -/
def SpanContext.isValid (sc : SpanContext) : Bool :=
  decide (sc.traceID ≠ 0) && decide (sc.spanID ≠ 0)

/-- The zero-value (invalid) span context. -/
def SpanContext.zero : SpanContext := ⟨0, 0⟩

/-- A baggage member: key, value and a validity flag standing for the
member-level validation the baggage library performs in SetMember. -/
structure Member where
  key : String
  value : String
  valid : Bool
deriving DecidableEq, Repr

/-- baggage.Baggage: an ordered collection of members, at most one per key. -/
abbrev Baggage := List Member

abbrev Err := String

/-- baggage.Baggage.SetMember: rejects an invalid member with an error,
otherwise replaces any existing member with the same key and appends. -/
def setMember (b : Baggage) (m : Member) : Except Err Baggage :=
  if m.valid then
    Except.ok ((b.filter fun x => decide (x.key ≠ m.key)) ++ [m])
  else
    Except.error "invalid member"

/-- context.Context as far as this repository reads or writes it: an optional
span context (written by Tracer.Start / propagator extraction, read by
trace.SpanContextFromContext), a baggage set, and an abstract payload `tag`
standing for all the values this code never touches. -/
structure Context where
  span : Option SpanContext
  baggage : Baggage
  tag : Nat
deriving DecidableEq, Repr

/-- trace.SpanContextFromContext: the span context stored in the context,
or the zero-value (invalid) one when none is stored. -/
def spanContextFromContext (ctx : Context) : SpanContext :=
  ctx.span.getD SpanContext.zero

/-- http.Header carrier contents: an ordered key/value list. -/
abbrev Headers := List (String × String)

/-- propagation.HeaderCarrier.Get: first value stored under the key, or the
empty string when the key is absent. -/
def headerGet (h : Headers) (key : String) : String :=
  match h.find? (fun kv => kv.1 == key) with
  | some kv => kv.2
  | none => ""

/-- http.Header.Set via the carrier: replace all values of the key, then
append the new binding. -/
def headerSet (h : Headers) (key value : String) : Headers :=
  (h.filter fun kv => decide (kv.1 ≠ key)) ++ [(key, value)]

/-- An abstract response writer; the middleware only forwards it. -/
abbrev ResponseWriter := Nat

/-- url.URL as read by this repository: the scheme field and the rendering
that URL.String() produces. -/
structure URL where
  scheme : String
  full : String
deriving DecidableEq, Repr

/-- http.Request as far as this repository reads or writes it.  `body`
stands for every field the code never touches. -/
structure Request where
  method : String
  url : URL
  host : String
  header : Headers
  ctx : Context
  body : String
deriving DecidableEq, Repr

/-- http.Request.WithContext: shallow copy with the context replaced (the
header map is shared between the copy and the original). -/
def Request.withContext (r : Request) (ctx : Context) : Request :=
  { r with ctx := ctx }

/-- http.Request.Clone(ctx): deep copy carrying the given context. -/
def Request.clone (r : Request) (ctx : Context) : Request :=
  { r with ctx := ctx }

/-- spyHeaderCarrier: wraps a carrier lookup function and keeps the ordered
log of keys that were queried while absent. -/
structure SpyHeaderCarrier where
  wrapped : String → String
  MissingHeaders : List String

/-- spyHeaderCarrier.Get (src/http.go lines 62-68): delegate the lookup to
the wrapped carrier; when the result is empty, append the key to the
missing-keys log; return the looked-up value. -/
def SpyHeaderCarrier.get (s : SpyHeaderCarrier) (key : String) :
    String × SpyHeaderCarrier :=
  let value := s.wrapped key
  if value = "" then
    (value, { s with MissingHeaders := s.MissingHeaders ++ [key] })
  else
    (value, s)

/-- Running a sequence of Get calls against a spy carrier, returning the
values in query order and the final carrier state. -/
def spyRun (s : SpyHeaderCarrier) : List String → List String × SpyHeaderCarrier
  | [] => ([], s)
  | k :: ks =>
    let p := s.get k
    let q := spyRun p.2 ks
    (p.1 :: q.1, q.2)

/-- propagation.TextMapPropagator, modelled by what the repository observes
of it: during extraction it probes a fixed list of carrier keys via Get and
parses the retrieved values into a span context (the zero value when the
headers decode to nothing); during injection it writes a list of key/value
pairs derived from the context into the carrier. -/
structure TextMapPropagator where
  probeKeys : List String
  parse : List String → SpanContext
  injectPairs : Context → List (String × String)

/-- Propagator extraction run against a fresh spy carrier over the given
headers, as in HTTPMiddlewareNoTracingWarning.ServeHTTP: returns the span
context of the extracted context together with the spy's missing-keys log. -/
def TextMapPropagator.extractSpy (p : TextMapPropagator) (h : Headers) :
    SpanContext × List String :=
  let q := spyRun { wrapped := headerGet h, MissingHeaders := [] } p.probeKeys
  (p.parse q.1, q.2.MissingHeaders)

/-- propagation.TextMapPropagator.Inject: write every injected pair into
the carrier with Set. -/
def TextMapPropagator.inject (p : TextMapPropagator) (ctx : Context)
    (h : Headers) : Headers :=
  (p.injectPairs ctx).foldl (fun acc kv => headerSet acc kv.1 kv.2) h

/-- HTTPMiddlewareWithContext (src/http.go lines 12-15). -/
structure HTTPMiddlewareWithContext where
  WithContextFn : Option (Context → SpanContext → Context)

/-- The observable effect of one ServeHTTP call of the context middleware:
the (writer, request) invocation handed to Next, and how many times
WithContextFn was invoked. -/
structure MWCall where
  nextW : ResponseWriter
  nextR : Request
  fnCalls : Nat
deriving DecidableEq, Repr

/-- HTTPMiddlewareWithContext.ServeHTTP (src/http.go lines 17-24): read the
span context from the request context; when it is valid and WithContextFn
is set, replace the context by WithContextFn(ctx, sp); unconditionally call
Next with the request rebound to the resulting context. -/
def HTTPMiddlewareWithContext.serveHTTP (mw : HTTPMiddlewareWithContext)
    (w : ResponseWriter) (r : Request) : MWCall :=
  let ctx := r.ctx
  let sp := spanContextFromContext ctx
  match mw.WithContextFn, sp.isValid with
  | some f, true => { nextW := w, nextR := r.withContext (f ctx sp), fnCalls := 1 }
  | some _, false => { nextW := w, nextR := r.withContext ctx, fnCalls := 0 }
  | none, _ => { nextW := w, nextR := r.withContext ctx, fnCalls := 0 }

/-- NoTracingWarningEvent (src/http.go lines 32-35). -/
structure NoTracingWarningEvent where
  MissingHeaders : List String
  Request : Request
deriving DecidableEq, Repr

/-- HTTPMiddlewareNoTracingWarning (src/http.go lines 26-30); the sink is
present or absent, its body is irrelevant to the middleware. -/
structure HTTPMiddlewareNoTracingWarning where
  Propagator : TextMapPropagator
  NotifyFn : Option (NoTracingWarningEvent → Unit)

/-- The observable effect of one ServeHTTP call of the warning middleware:
the events passed to the sink, in call order, and the (writer, request)
invocation handed to Next. -/
structure NTWCall where
  notifications : List NoTracingWarningEvent
  nextW : ResponseWriter
  nextR : Request
deriving DecidableEq, Repr

/-- HTTPMiddlewareNoTracingWarning.notify (src/http.go lines 47-55): when a
sink is configured, invoke it once with the missing-header log and a clone
of the request; otherwise do nothing. -/
def HTTPMiddlewareNoTracingWarning.notify (mw : HTTPMiddlewareNoTracingWarning)
    (r : Request) (missingHeaders : List String) : List NoTracingWarningEvent :=
  match mw.NotifyFn with
  | none => []
  | some _ => [{ MissingHeaders := missingHeaders, Request := r.clone r.ctx }]

/-- HTTPMiddlewareNoTracingWarning.ServeHTTP (src/http.go lines 37-45):
extract a span context from the raw headers through a fresh spy carrier;
when it is invalid, notify; always forward the original writer and request
to Next. -/
def HTTPMiddlewareNoTracingWarning.serveHTTP
    (mw : HTTPMiddlewareNoTracingWarning) (w : ResponseWriter) (r : Request) :
    NTWCall :=
  let e := mw.Propagator.extractSpy r.header
  let notifs := if e.1.isValid then [] else mw.notify r e.2
  { notifications := notifs, nextW := w, nextR := r }

/-- An HTTP response; its payload is irrelevant to the round-tripper. -/
abbrev Response := Nat

/-- A Go panic value. -/
abbrev Fault := String

/-- What the wrapped transport does on one call: return a (response, error)
pair normally, or raise a runtime fault (panic). -/
inductive TransportResult where
  | normal (resp : Option Response) (err : Option Err)
  | fault (v : Fault)
deriving DecidableEq, Repr

/-- How a call finishes as seen by its caller: a returned value, or a fault
that keeps unwinding into the caller. -/
inductive Outcome (A : Type) where
  | ok (a : A)
  | faulted (v : Fault)
deriving DecidableEq, Repr

/-- Events applied to the span handle returned by Tracer.Start. -/
inductive SpanEvent where
  | ended
deriving DecidableEq, Repr

/-- Go defer semantics for a deferred action that appends span events: the
deferred events run when the surrounding call exits, on the normal path and
on the unwinding (fault) path alike, and the outcome itself — returned value
or re-raised fault — passes through unchanged. -/
def deferRun {A : Type} (deferred : List SpanEvent)
    (body : Outcome A × List SpanEvent) : Outcome A × List SpanEvent :=
  (body.1, body.2 ++ deferred)

/-- trace.Tracer as the round-tripper uses it: Start returns a fresh
context (carrying the new span); the span handle itself is tracked by the
event trace. -/
abbrev Tracer := Context → String → Context

/-- The span kind passed in the span start options. -/
inductive SpanKind where
  | client
  | server
  | internal
deriving DecidableEq, Repr

/-- HTTPRoundTripper (src/http.go lines 70-75). -/
structure HTTPRoundTripper where
  Next : Request → TransportResult
  Propagator : TextMapPropagator
  Tracer : Tracer
  SpanNameFn : Option (Request → String)

/-- The fixed fallback span name (src/http.go line 77). -/
def defaultSpanName : String := "http-request"

/-- semconv v1.7.0 attribute keys used in the span start options. -/
def httpMethodKey : String := "http.method"

def httpURLKey : String := "http.url"

def httpSchemeKey : String := "http.scheme"

def httpHostKey : String := "http.host"

/-- The observable effect of one RoundTrip call: what was passed to
Tracer.Start, the headers after injection, the request handed to the
wrapped transport, the events applied to the span, the outcome delivered to
the caller, and the caller's request object as it stands after the call
(its header map was mutated in place by Inject; WithContext shares it). -/
structure RTCall where
  startParent : Context
  startName : String
  startKind : SpanKind
  startAttrs : List (String × String)
  newCtx : Context
  nextRequest : Request
  spanEvents : List SpanEvent
  outcome : Outcome (Option Response × Option Err)
  callerRequestAfter : Request

/-- HTTPRoundTripper.RoundTrip (src/http.go lines 79-99): build the span
start attributes from the request, pick the span name, start a client span,
defer span.End, inject the new context into the request's header map (in
place — the rebound request made by WithContext shares that map), call the
wrapped transport with the rebound request, and let its return value or
fault pass through the deferred span end. -/
def HTTPRoundTripper.roundTrip (rt : HTTPRoundTripper) (request : Request) :
    RTCall :=
  let spanStartAttrs :=
    [(httpMethodKey, request.method),
     (httpURLKey, request.url.full),
     (httpSchemeKey, request.url.scheme),
     (httpHostKey, request.host)]
  let spanName :=
    match rt.SpanNameFn with
    | some f => f request
    | none => defaultSpanName
  let ctx := rt.Tracer request.ctx spanName
  let injected := rt.Propagator.inject ctx request.header
  let nextReq : Request := { request with header := injected, ctx := ctx }
  let bodyResult : Outcome (Option Response × Option Err) :=
    match rt.Next nextReq with
    | TransportResult.normal resp err => Outcome.ok (resp, err)
    | TransportResult.fault v => Outcome.faulted v
  let finished := deferRun [SpanEvent.ended] (bodyResult, [])
  { startParent := request.ctx
    startName := spanName
    startKind := SpanKind.client
    startAttrs := spanStartAttrs
    newCtx := ctx
    nextRequest := nextReq
    spanEvents := finished.2
    outcome := finished.1
    callerRequestAfter := { request with header := injected } }

/-- An item passed to ContextWithBaggage: a ready baggage member, or a
zero-argument producing function that yields a member or fails. -/
inductive BaggageItem where
  | member (m : Member)
  | producer (f : Unit → Except Err Member)

/-- The for-loop of ContextWithBaggage (src/http.go lines 106-124): fold
the items left to right into the baggage set, stopping at the first error
(a member rejected by SetMember, or a failing producer). -/
def contextWithBaggageLoop (b : Baggage) : List BaggageItem → Except Err Baggage
  | [] => Except.ok b
  | BaggageItem.member m :: rest =>
    match setMember b m with
    | Except.error e => Except.error e
    | Except.ok b1 => contextWithBaggageLoop b1 rest
  | BaggageItem.producer f :: rest =>
    match f () with
    | Except.error e => Except.error e
    | Except.ok m =>
      match setMember b m with
      | Except.error e => Except.error e
      | Except.ok b1 => contextWithBaggageLoop b1 rest

/-- ContextWithBaggage (src/http.go lines 101-126): start from the baggage
already in the context, fold all items through the loop; on the first error
return (nil, err); on success attach the accumulated baggage to the context
and return it with a nil error. -/
def ContextWithBaggage (ctx : Context) (items : List BaggageItem) :
    Option Context × Option Err :=
  match contextWithBaggageLoop (ctx.baggage) items with
  | Except.error e => (none, some e)
  | Except.ok b => (some { ctx with baggage := b }, none)

/-- The member each item supplies: a ready member itself, or the member its
producer yields (items whose producer fails supply none). -/
def suppliedMembers : List BaggageItem → List Member
  | [] => []
  | BaggageItem.member m :: rest => m :: suppliedMembers rest
  | BaggageItem.producer f :: rest =>
    match f () with
    | Except.ok m => m :: suppliedMembers rest
    | Except.error _ => suppliedMembers rest

/-- An exported span record; its payload is irrelevant to the exporter. -/
abbrev SpanRecord := Nat

/-- FakeSpanExporter (src/testing.go lines 78-82): the mutex-guarded spans
slice.  The mutex serializes ExportSpans and ExportedSpans calls; the model
below therefore interprets any serialized sequence of such calls. -/
structure FakeSpanExporter where
  spans : List SpanRecord
deriving DecidableEq, Repr

/-- FakeSpanExporter.ExportSpans (src/testing.go lines 84-89): append the
whole batch under the lock and report a nil error. -/
def FakeSpanExporter.ExportSpans (exp : FakeSpanExporter)
    (batch : List SpanRecord) : FakeSpanExporter × Option Err :=
  ({ spans := exp.spans ++ batch }, none)

/-- FakeSpanExporter.ExportedSpans (src/testing.go lines 91-95): return a
fresh copy of the recorded spans, built by appending them to a new empty
slice. -/
def FakeSpanExporter.ExportedSpans (exp : FakeSpanExporter) : List SpanRecord :=
  [] ++ exp.spans

/-- One serialized operation on the exporter: an ExportSpans call with its
batch, or an ExportedSpans (snapshot) call. -/
inductive ExpOp where
  | exportCall (batch : List SpanRecord)
  | snapshotCall
deriving DecidableEq, Repr

/-- Interpret a serialized sequence of exporter operations: the final
exporter state, and the list the snapshots returned, in call order. -/
def runExporter (exp : FakeSpanExporter) :
    List ExpOp → FakeSpanExporter × List (List SpanRecord)
  | [] => (exp, [])
  | ExpOp.exportCall b :: rest => runExporter (exp.ExportSpans b).1 rest
  | ExpOp.snapshotCall :: rest =>
    let q := runExporter exp rest
    (q.1, exp.ExportedSpans :: q.2)

/-- All spans recorded by the ExportSpans calls of an operation sequence,
concatenated in call order. -/
def opBatches : List ExpOp → List SpanRecord
  | [] => []
  | ExpOp.exportCall b :: rest => b ++ opBatches rest
  | ExpOp.snapshotCall :: rest => opBatches rest

/-! Helper lemmas shared by the claim theorems. -/

/-- The outcome a RoundTrip call delivers is exactly the wrapped transport's
result, with a fault passing through as a fault. -/
theorem roundTrip_outcome_eq (rt : HTTPRoundTripper) (request : Request) :
    (rt.roundTrip request).outcome =
      (match rt.Next ((rt.roundTrip request).nextRequest) with
       | TransportResult.normal resp err => Outcome.ok (resp, err)
       | TransportResult.fault v => Outcome.faulted v) := by
  simp [HTTPRoundTripper.roundTrip, deferRun]

/-- A RoundTrip call applies exactly one event to its span: the deferred
span end. -/
theorem roundTrip_spanEvents_eq (rt : HTTPRoundTripper) (request : Request) :
    (rt.roundTrip request).spanEvents = [SpanEvent.ended] := by
  simp [HTTPRoundTripper.roundTrip, deferRun]

/-- Claim C1: on every exit path of RoundTrip — the wrapped transport
returning normally (with or without an error value) or panicking — the span
is ended exactly once, and a panic is re-raised with the same value after
the span end rather than being converted into a returned error value. -/
theorem roundTrip_span_end_and_fault_spec (rt : HTTPRoundTripper) (request : Request) :
    (rt.roundTrip request).spanEvents = [SpanEvent.ended] ∧
    (rt.roundTrip request).outcome =
      (match rt.Next ((rt.roundTrip request).nextRequest) with
       | TransportResult.normal resp err => Outcome.ok (resp, err)
       | TransportResult.fault v => Outcome.faulted v) := by
  exact ⟨roundTrip_spanEvents_eq rt request, roundTrip_outcome_eq rt request⟩

/-- Claim C2: the context middleware forwards every request to Next; the
context Next observes is WithContextFn(original ctx, span context) exactly
when the request's span context is valid and WithContextFn is configured,
and the original context unchanged in every other case, with WithContextFn
never invoked then. -/
theorem middlewareWithContext_context_spec (mw : HTTPMiddlewareWithContext)
    (w : ResponseWriter) (r : Request) :
    (mw.serveHTTP w r).nextW = w ∧
    (mw.serveHTTP w r).nextR = r.withContext (mw.serveHTTP w r).nextR.ctx ∧
    (mw.serveHTTP w r).nextR.ctx =
      (match mw.WithContextFn, (spanContextFromContext r.ctx).isValid with
       | some f, true => f r.ctx (spanContextFromContext r.ctx)
       | some _, false => r.ctx
       | none, _ => r.ctx) ∧
    (mw.serveHTTP w r).fnCalls =
      (match mw.WithContextFn, (spanContextFromContext r.ctx).isValid with
       | some _, true => 1
       | some _, false => 0
       | none, _ => 0) := by
  cases hf : mw.WithContextFn <;>
    cases hv : (spanContextFromContext r.ctx).isValid <;>
      simp [HTTPMiddlewareWithContext.serveHTTP, Request.withContext, hf, hv]

/-- Claim C3: the warning middleware invokes the sink exactly once — with
the probe's missing-keys log and a clone of the request — iff the span
context extracted from the raw headers is invalid and a sink is configured,
and it always forwards the original writer and request to Next. -/
theorem noTracingWarning_notify_spec (mw : HTTPMiddlewareNoTracingWarning)
    (w : ResponseWriter) (r : Request) :
    (mw.serveHTTP w r).nextW = w ∧
    (mw.serveHTTP w r).nextR = r ∧
    (mw.serveHTTP w r).notifications =
      (if (mw.Propagator.extractSpy r.header).1.isValid = false ∧
          mw.NotifyFn.isSome = true then
        [{ MissingHeaders := (mw.Propagator.extractSpy r.header).2,
           Request := r.clone r.ctx }]
      else []) := by
  cases hn : mw.NotifyFn <;>
    cases hv : (mw.Propagator.extractSpy r.header).1.isValid <;>
      simp [HTTPMiddlewareNoTracingWarning.serveHTTP,
        HTTPMiddlewareNoTracingWarning.notify, hn, hv]

/-- Claim C5: RoundTrip starts a client-kind span named SpanNameFn(request)
when a name function is configured and "http-request" otherwise, whose
start attributes are exactly the request's method, full URL string, URL
scheme and host, taken verbatim from the request. -/
theorem roundTrip_span_start_spec (rt : HTTPRoundTripper) (request : Request) :
    (rt.roundTrip request).startName =
      (match rt.SpanNameFn with
       | some f => f request
       | none => "http-request") ∧
    (rt.roundTrip request).startKind = SpanKind.client ∧
    (rt.roundTrip request).startAttrs =
      [(httpMethodKey, request.method),
       (httpURLKey, request.url.full),
       (httpSchemeKey, request.url.scheme),
       (httpHostKey, request.host)] ∧
    (rt.roundTrip request).startParent = request.ctx := by
  cases hf : rt.SpanNameFn <;>
    simp [HTTPRoundTripper.roundTrip, defaultSpanName, hf]

/-- Claim C8: spy Get delegates to the wrapped carrier and returns its
value unchanged, and the missing-keys log after a query sequence is the
initial log extended, in query order and with multiplicity, by exactly the
keys whose wrapped value was empty. -/
theorem spyGet_missing_log_spec (s : SpyHeaderCarrier) (qs : List String) :
    (spyRun s qs).1 = qs.map s.wrapped ∧
    (spyRun s qs).2.wrapped = s.wrapped ∧
    (spyRun s qs).2.MissingHeaders =
      s.MissingHeaders ++ qs.filter (fun k => decide (s.wrapped k = "")) := by
  induction qs generalizing s with
  | nil => simp [spyRun]
  | cons k ks ih =>
    by_cases h : s.wrapped k = "" <;>
      simp [spyRun, SpyHeaderCarrier.get, h, ih, List.filter_cons]

/-- Claim C9: when the wrapped transport returns normally, RoundTrip
returns its response and error values unchanged — never wrapped, retried or
replaced. -/
theorem roundTrip_passthrough_spec (rt : HTTPRoundTripper) (request : Request)
    (resp : Option Response) (err : Option Err)
    (h : rt.Next ((rt.roundTrip request).nextRequest) =
      TransportResult.normal resp err) :
    (rt.roundTrip request).outcome = Outcome.ok (resp, err) := by
  rw [roundTrip_outcome_eq, h]

/-- Witness for claim C9 at a concrete transport and request. -/
theorem roundTrip_passthrough_spec_witness :
    (HTTPRoundTripper.roundTrip
      { Next := fun _ => TransportResult.normal (some 200) none
        Propagator := ⟨[], fun _ => SpanContext.zero, fun _ => []⟩
        Tracer := fun c _ => c
        SpanNameFn := none }
      ⟨"GET", ⟨"http", "http://h/x"⟩, "h", [], ⟨none, [], 0⟩, ""⟩).outcome =
      Outcome.ok (some 200, none) :=
  roundTrip_passthrough_spec
    { Next := fun _ => TransportResult.normal (some 200) none
      Propagator := ⟨[], fun _ => SpanContext.zero, fun _ => []⟩
      Tracer := fun c _ => c
      SpanNameFn := none }
    ⟨"GET", ⟨"http", "http://h/x"⟩, "h", [], ⟨none, [], 0⟩, ""⟩
    (some 200) none rfl

/-- Claim C10: RoundTrip injects the trace headers into the caller's
request header map in place — the request handed to the wrapped transport
shares that map, differing from the caller's request only by its rebound
context — so after the call the caller's request shows the injected
headers while every other of its fields is unchanged. -/
theorem roundTrip_header_mutation_spec (rt : HTTPRoundTripper) (request : Request) :
    (rt.roundTrip request).callerRequestAfter =
      { request with
          header := rt.Propagator.inject (rt.roundTrip request).newCtx request.header } ∧
    (rt.roundTrip request).nextRequest =
      ((rt.roundTrip request).callerRequestAfter).withContext
        (rt.roundTrip request).newCtx := by
  constructor <;> simp [HTTPRoundTripper.roundTrip, Request.withContext]

/-- The exporter state after a run: the initial spans followed by every
exported batch, in call order. -/
theorem runExporter_state_eq (ops : List ExpOp) (exp : FakeSpanExporter) :
    (runExporter exp ops).1 = ⟨exp.spans ++ opBatches ops⟩ := by
  induction ops generalizing exp with
  | nil => simp [runExporter, opBatches]
  | cons op rest ih =>
    cases op with
    | exportCall b =>
      simp [runExporter, opBatches, FakeSpanExporter.ExportSpans, ih,
        List.append_assoc]
    | snapshotCall => simp [runExporter, opBatches, ih]

/-- Claim C6: in any serialized sequence of exporter calls, an
ExportedSpans call returns exactly the concatenation, in call order, of all
batches exported before it, and that returned sequence is independent of
the operations that follow — later ExportSpans calls never change it. -/
theorem exportedSpans_snapshot_spec (exp : FakeSpanExporter) (l r : List ExpOp) :
    (runExporter exp (l ++ ExpOp.snapshotCall :: r)).2 =
      (runExporter exp l).2 ++
        (exp.spans ++ opBatches l) ::
          (runExporter ⟨exp.spans ++ opBatches l⟩ r).2 := by
  induction l generalizing exp with
  | nil => simp [runExporter, opBatches, FakeSpanExporter.ExportedSpans]
  | cons op rest ih =>
    cases op with
    | exportCall b =>
      simp [runExporter, opBatches, FakeSpanExporter.ExportSpans, ih,
        List.append_assoc]
    | snapshotCall => simp [runExporter, opBatches, ih]

/-- All batches of a pure sequence of ExportSpans calls concatenate to the
join of the batch list. -/
theorem opBatches_map_exportCall (bs : List (List SpanRecord)) :
    opBatches (bs.map ExpOp.exportCall) = bs.flatten := by
  induction bs with
  | nil => simp [opBatches]
  | cons b rest ih => simp [opBatches, ih]

/-- The multiset of a concatenation of lists is the sum of their multisets. -/
theorem multiset_coe_flatten (bs : List (List SpanRecord)) :
    ((bs.flatten : List SpanRecord) : Multiset SpanRecord) =
      (bs.map fun b : List SpanRecord => (b : Multiset SpanRecord)).sum := by
  induction bs with
  | nil => simp
  | cons b rest ih => simp [← Multiset.coe_add, ih]

/-- Claim C7: for any serialization of concurrent ExportSpans calls (the
mutex admits the batches in an arbitrary order), the final snapshot's
length is the total number of spans across all calls, and its multiset is
exactly the multiset union of all batches — no span duplicated or dropped. -/
theorem fakeSpanExporter_race_safety_spec
    (calls interleaving : List (List SpanRecord))
    (h : interleaving.Perm calls) :
    ((runExporter ⟨[]⟩ (interleaving.map ExpOp.exportCall)).1.ExportedSpans).length =
      (calls.map List.length).sum ∧
    (((runExporter ⟨[]⟩ (interleaving.map ExpOp.exportCall)).1.ExportedSpans :
        List SpanRecord) : Multiset SpanRecord) =
      (calls.map fun b : List SpanRecord => (b : Multiset SpanRecord)).sum := by
  rw [runExporter_state_eq]
  constructor
  · simp [FakeSpanExporter.ExportedSpans, opBatches_map_exportCall,
      List.length_flatten]
    exact (h.map List.length).sum_eq
  · simp [FakeSpanExporter.ExportedSpans, opBatches_map_exportCall,
      multiset_coe_flatten]
    exact (h.map fun b : List SpanRecord => (b : Multiset SpanRecord)).sum_eq

/-- Witness for claim C7 at a concrete pair of batches admitted by the
mutex in the opposite order. -/
theorem fakeSpanExporter_race_safety_spec_witness :
    ((runExporter ⟨[]⟩ ([[2, 3], [1]].map ExpOp.exportCall)).1.ExportedSpans).length =
      (([[1], [2, 3]] : List (List SpanRecord)).map List.length).sum ∧
    (((runExporter ⟨[]⟩ ([[2, 3], [1]].map ExpOp.exportCall)).1.ExportedSpans :
        List SpanRecord) : Multiset SpanRecord) =
      (([[1], [2, 3]] : List (List SpanRecord)).map
        fun b : List SpanRecord => (b : Multiset SpanRecord)).sum :=
  fakeSpanExporter_race_safety_spec [[1], [2, 3]] [[2, 3], [1]] (by decide)

/-- A failing prefix decides the whole loop: once an item fails, the
remaining items are never processed. -/
theorem contextWithBaggageLoop_error_append (l : List BaggageItem) :
    ∀ (b : Baggage) (e : Err) (r : List BaggageItem),
      contextWithBaggageLoop b l = Except.error e →
      contextWithBaggageLoop b (l ++ r) = Except.error e := by
  induction l with
  | nil => intro b e r h; simp [contextWithBaggageLoop] at h
  | cons it rest ih =>
    intro b e r h
    cases it with
    | member m =>
      cases hs : setMember b m with
      | error e1 =>
        simp [contextWithBaggageLoop, hs] at h ⊢
        exact h
      | ok b1 =>
        simp [contextWithBaggageLoop, hs] at h ⊢
        exact ih b1 e r h
    | producer f =>
      cases hf : f () with
      | error e1 =>
        simp [contextWithBaggageLoop, hf] at h ⊢
        exact h
      | ok m =>
        cases hs : setMember b m with
        | error e1 =>
          simp [contextWithBaggageLoop, hf, hs] at h ⊢
          exact h
        | ok b1 =>
          simp [contextWithBaggageLoop, hf, hs] at h ⊢
          exact ih b1 e r h

/-- A member already in the baggage survives the rest of the loop as long
as no later supplied member reuses its key. -/
theorem contextWithBaggageLoop_mem_preserved (l : List BaggageItem) :
    ∀ (b b1 : Baggage) (x : Member),
      contextWithBaggageLoop b l = Except.ok b1 → x ∈ b →
      x.key ∉ (suppliedMembers l).map Member.key → x ∈ b1 := by
  induction l with
  | nil =>
    intro b b1 x h hx _
    simp [contextWithBaggageLoop] at h
    exact h ▸ hx
  | cons it rest ih =>
    intro b b1 x h hx hk
    cases it with
    | member m =>
      cases hv : m.valid with
      | false => simp [contextWithBaggageLoop, setMember, hv] at h
      | true =>
        simp [contextWithBaggageLoop, setMember, hv] at h
        simp [suppliedMembers] at hk
        obtain ⟨hne, hk1⟩ := hk
        refine ih _ b1 x h ?_ (by simpa using hk1)
        exact List.mem_append.mpr
          (Or.inl (List.mem_filter.mpr ⟨hx, by simp [hne]⟩))
    | producer f =>
      cases hf : f () with
      | error e => simp [contextWithBaggageLoop, hf] at h
      | ok m =>
        cases hv : m.valid with
        | false => simp [contextWithBaggageLoop, hf, setMember, hv] at h
        | true =>
          simp [contextWithBaggageLoop, hf, setMember, hv] at h
          simp [suppliedMembers, hf] at hk
          obtain ⟨hne, hk1⟩ := hk
          refine ih _ b1 x h ?_ (by simpa using hk1)
          exact List.mem_append.mpr
            (Or.inl (List.mem_filter.mpr ⟨hx, by simp [hne]⟩))

/-- When the loop succeeds and the supplied members carry pairwise distinct
keys, every supplied member ends up in the resulting baggage. -/
theorem contextWithBaggageLoop_supplied_mem (l : List BaggageItem) :
    ∀ (b b1 : Baggage),
      contextWithBaggageLoop b l = Except.ok b1 →
      ((suppliedMembers l).map Member.key).Nodup →
      ∀ m ∈ suppliedMembers l, m ∈ b1 := by
  induction l with
  | nil =>
    intro b b1 _ _ m hm
    simp [suppliedMembers] at hm
  | cons it rest ih =>
    intro b b1 h hnd m hm
    cases it with
    | member m0 =>
      cases hv : m0.valid with
      | false => simp [contextWithBaggageLoop, setMember, hv] at h
      | true =>
        simp [contextWithBaggageLoop, setMember, hv] at h
        simp [suppliedMembers] at hm hnd
        obtain ⟨hk0, hndrest⟩ := hnd
        rcases hm with rfl | hm
        · exact contextWithBaggageLoop_mem_preserved rest _ b1 m h
            (List.mem_append.mpr (Or.inr (by simp))) (by simpa using hk0)
        · exact ih _ b1 h hndrest m hm
    | producer f =>
      cases hf : f () with
      | error e => simp [contextWithBaggageLoop, hf] at h
      | ok m0 =>
        cases hv : m0.valid with
        | false => simp [contextWithBaggageLoop, hf, setMember, hv] at h
        | true =>
          simp [contextWithBaggageLoop, hf, setMember, hv] at h
          simp [suppliedMembers, hf] at hm hnd
          obtain ⟨hk0, hndrest⟩ := hnd
          rcases hm with rfl | hm
          · exact contextWithBaggageLoop_mem_preserved rest _ b1 m h
              (List.mem_append.mpr (Or.inr (by simp))) (by simpa using hk0)
          · exact ih _ b1 h hndrest m hm

/-- Claim C4 (amended): ContextWithBaggage processes items in order; the
first failure aborts immediately — the remaining items never run — and is
returned with a nil context, so no partial context escapes; on full success
it returns a nil error and a new context, built from the original, whose
baggage is the accumulated set: it contains every supplied member whose key
no later supplied member reuses (a later member with the same key replaces
the earlier one), hence every supplied member when their keys are pairwise
distinct. -/
theorem contextWithBaggage_first_failure_spec (ctx : Context)
    (pre post items : List BaggageItem) :
    (∀ e : Err, contextWithBaggageLoop ctx.baggage pre = Except.error e →
      ContextWithBaggage ctx (pre ++ post) = (none, some e)) ∧
    (∀ b : Baggage, contextWithBaggageLoop ctx.baggage items = Except.ok b →
      ContextWithBaggage ctx items = (some { ctx with baggage := b }, none) ∧
      (((suppliedMembers items).map Member.key).Nodup →
        ∀ m ∈ suppliedMembers items, m ∈ b)) := by
  constructor
  · intro e he
    simp [ContextWithBaggage,
      contextWithBaggageLoop_error_append pre ctx.baggage e post he]
  · intro b hb
    refine ⟨by simp [ContextWithBaggage, hb], ?_⟩
    intro hnd m hm
    exact contextWithBaggageLoop_supplied_mem items ctx.baggage b hb hnd m hm

/-- Witness for claim C4: a failing first member aborts with a nil context
even though a valid member follows, and a succeeding singleton attaches its
member. -/
theorem contextWithBaggage_first_failure_spec_witness :
    ContextWithBaggage ⟨none, [], 0⟩
        ([BaggageItem.member ⟨"bad", "x", false⟩] ++
          [BaggageItem.member ⟨"a", "1", true⟩]) =
      (none, some "invalid member") ∧
    ContextWithBaggage ⟨none, [], 0⟩ [BaggageItem.member ⟨"a", "1", true⟩] =
      (some ⟨none, [⟨"a", "1", true⟩], 0⟩, none) :=
  ⟨(contextWithBaggage_first_failure_spec ⟨none, [], 0⟩
      [BaggageItem.member ⟨"bad", "x", false⟩]
      [BaggageItem.member ⟨"a", "1", true⟩] []).1 "invalid member" rfl,
   ((contextWithBaggage_first_failure_spec ⟨none, [], 0⟩ [] []
      [BaggageItem.member ⟨"a", "1", true⟩]).2 [⟨"a", "1", true⟩] rfl).1⟩

/-- Counterexample to claim C4 as stated: two valid members sharing a key
fully succeed, yet the resulting baggage does not contain the first
supplied member — the second replaced it. -/
theorem contextWithBaggage_duplicate_key_counterexample :
    ContextWithBaggage ⟨none, [], 0⟩
        [BaggageItem.member ⟨"k", "v1", true⟩,
         BaggageItem.member ⟨"k", "v2", true⟩] =
      (some ⟨none, [⟨"k", "v2", true⟩], 0⟩, none) ∧
    (⟨"k", "v1", true⟩ : Member) ∉
      (⟨none, [⟨"k", "v2", true⟩], 0⟩ : Context).baggage := by
  decide
